import Mathlib

/-
  Verification of the combat/turn engine of the BattleforFunMiniApp repository.

  The repository contains two engine variants:
  * src/src/pages/Game2.tsx, component Game2: a time-driven (action-point) variant
    on a 12 x 10 grid, with BFS movement, min/max attack ranges, a health-scaled
    damage model and instant city ownership transfer on entry;
  * src/src/pages/Game.tsx (and an extended copy appended inside Game2.tsx):
    a turn-based variant on a fixed square grid, with Manhattan-window movement
    and attack ranges, a flat-mitigation damage model, capture progress for
    cities and a hasMoved/hasAttacked action economy.

  Every definition below is a direct shallow embedding of the corresponding
  source function; grids are total functions from coordinates to tiles and the
  randomised map generation is irrelevant to the verified properties.
-/

namespace BattleForFun

/-! ## Time-driven variant (Game2.tsx, component Game2) -/

inductive Player2 where
  | p1
  | p2
deriving DecidableEq, Repr

inductive Terrain2 where
  | plain
  | forest
  | mountain
  | city
  | base
deriving DecidableEq, Repr

inductive UnitKind2 where
  | infantry
  | tank
  | artillery
deriving DecidableEq, Repr

/-- A unit of the time-driven variant: interface Unit of Game2 (type, player, hp).
This variant has no hasMoved/hasAttacked flags; actions are paid from a shared
action-point pool instead. -/
structure Unit2 where
  type : UnitKind2
  player : Player2
  hp : Int
deriving DecidableEq, Repr

/-- A tile of the time-driven variant: interface Tile of Game2. -/
structure Tile2 where
  terrain : Terrain2
  unit : Option Unit2
  owner : Option Player2
deriving DecidableEq, Repr

/-- The board, a total function from coordinates to tiles; the source stores a
12 x 10 array and always bounds-checks indices before access. -/
structure Grid2 where
  tile : Nat → Nat → Tile2

/-- gridSize.width in Game2. -/
def gridWidth : Nat := 12

/-- gridSize.height in Game2. -/
def gridHeight : Nat := 10

/-- Per-kind stats: the UNIT_STATS record of Game2. -/
structure UnitStats where
  cost : Nat
  movement : Nat
  minRange : Nat
  maxRange : Nat
  attack : Nat
  defense : Nat
deriving DecidableEq, Repr

/-- The UNIT_STATS table of Game2. -/
def UNIT_STATS : UnitKind2 → UnitStats
  | .infantry => { cost := 1000, movement := 3, minRange := 1, maxRange := 1, attack := 55, defense := 50 }
  | .tank => { cost := 7000, movement := 6, minRange := 1, maxRange := 1, attack := 85, defense := 70 }
  | .artillery => { cost := 6000, movement := 5, minRange := 2, maxRange := 3, attack := 90, defense := 40 }

/-- The TERRAIN_DEFENSE table of Game2. -/
def TERRAIN_DEFENSE : Terrain2 → Nat
  | .plain => 0
  | .forest => 20
  | .mountain => 30
  | .city => 30
  | .base => 30

/-- Replace one tile of the board, leaving all other tiles untouched. -/
def setTile2 (g : Grid2) (x y : Nat) (t : Tile2) : Grid2 :=
  ⟨fun a b => if a = x ∧ b = y then t else g.tile a b⟩

/-- Step cost of entering a tile in calculateValidMoves:
mountain costs 2, anything else costs 1. -/
def moveCost2 (t : Terrain2) : Nat :=
  if t = Terrain2.mountain then 2 else 1

/-- Occupancy test of calculateValidMoves: a neighbor tile may be entered when
it holds no unit or a unit of the moving player. -/
def canEnter2 (pl : Player2) (t : Tile2) : Bool :=
  match t.unit with
  | none => true
  | some v => v.player = pl

/-- The four neighbor offsets used by calculateValidMoves, in source order. -/
def directions : List (Int × Int) := [(-1, 0), (1, 0), (0, -1), (0, 1)]

/-- A queue entry of the BFS in calculateValidMoves. -/
structure BfsNode where
  x : Nat
  y : Nat
  movesLeft : Nat
deriving DecidableEq, Repr

/-- One neighbor examination of the BFS inner loop: bounds check, visited
check, occupancy check, cost check; on success the node is appended to the
queue and its position is marked visited.  The pair carries (queue, visited). -/
def tryNeighbor (g : Grid2) (pl : Player2) (cur : BfsNode)
    (st : List BfsNode × List (Nat × Nat)) (d : Int × Int) :
    List BfsNode × List (Nat × Nat) :=
  let nxI : Int := (cur.x : Int) + d.1
  let nyI : Int := (cur.y : Int) + d.2
  if 0 ≤ nxI ∧ nxI < (gridWidth : Int) ∧ 0 ≤ nyI ∧ nyI < (gridHeight : Int) then
    let nx := nxI.toNat
    let ny := nyI.toNat
    if (nx, ny) ∈ st.2 then st
    else
      let t := g.tile nx ny
      if canEnter2 pl t then
        let c := moveCost2 t.terrain
        if c ≤ cur.movesLeft then
          (st.1 ++ [⟨nx, ny, cur.movesLeft - c⟩], (nx, ny) :: st.2)
        else st
      else st
  else st

/-- The BFS loop of calculateValidMoves.  Each iteration dequeues one node,
records its position as a valid move, and examines the four neighbors.  The
fuel argument bounds the number of iterations; since every enqueued node marks
a distinct cell visited, gridWidth * gridHeight iterations always drain the
queue. -/
def bfsLoop (g : Grid2) (pl : Player2) :
    Nat → List BfsNode → List (Nat × Nat) → List (Nat × Nat) → List (Nat × Nat)
  | 0, _, _, moves => moves
  | _ + 1, [], _, moves => moves
  | fuel + 1, cur :: rest, visited, moves =>
    let st := directions.foldl (tryNeighbor g pl cur) (rest, visited)
    bfsLoop g pl fuel st.1 st.2 ((cur.x, cur.y) :: moves)

/-- calculateValidMoves of Game2, returned as the list of positions whose
entry in the boolean moves matrix is true.  Returns the empty set when the
source tile holds no unit. -/
def calculateValidMoves (g : Grid2) (x y : Nat) : List (Nat × Nat) :=
  match (g.tile x y).unit with
  | none => []
  | some u =>
    bfsLoop g u.player (gridWidth * gridHeight)
      [⟨x, y, (UNIT_STATS u.type).movement⟩] [(x, y)] []

/-- Manhattan distance Math.abs(tx - x) + Math.abs(ty - y) used by the range
scans of both variants. -/
def manhattan (x y tx ty : Nat) : Nat :=
  ((tx : Int) - (x : Int)).natAbs + ((ty : Int) - (y : Int)).natAbs

/-- One cell of the calculateValidAttacks scan: the position is kept when its
Manhattan distance from the unit lies between minRange and maxRange of the
unit kind and the cell holds an enemy unit. -/
def attackTarget (g : Grid2) (u : Unit2) (x y tx ty : Nat) : Option (Nat × Nat) :=
  let stats := UNIT_STATS u.type
  let distance := manhattan x y tx ty
  match (g.tile tx ty).unit with
  | some targetUnit =>
    if stats.minRange ≤ distance ∧ distance ≤ stats.maxRange ∧ targetUnit.player ≠ u.player
    then some (tx, ty) else none
  | none => none

/-- calculateValidAttacks of Game2: a brute-force scan of the whole board. -/
def calculateValidAttacks (g : Grid2) (x y : Nat) : List (Nat × Nat) :=
  match (g.tile x y).unit with
  | none => []
  | some u =>
    (List.range gridHeight).flatMap fun (ty : Nat) =>
      (List.range gridWidth).filterMap fun (tx : Nat) =>
        attackTarget g u x y tx ty

/-- moveUnit of Game2: place the unit on the destination tile, clear the
source tile, and if the destination terrain is a city whose owner is not the
moving player, transfer ownership to the moving player.  Returns none when the
source tile holds no unit (the source dereferences it unconditionally). -/
def moveUnit2 (g : Grid2) (fromX fromY toX toY : Nat) : Option Grid2 :=
  match (g.tile fromX fromY).unit with
  | none => none
  | some u =>
    let g1 := setTile2 g toX toY { g.tile toX toY with unit := some u }
    let g2 := setTile2 g1 fromX fromY { g1.tile fromX fromY with unit := none }
    if (g2.tile toX toY).terrain = Terrain2.city ∧ (g2.tile toX toY).owner ≠ some u.player then
      some (setTile2 g2 toX toY { g2.tile toX toY with owner := some u.player })
    else
      some g2

/-- The health-scaled damage formula of performAttack in Game2:
max(1, floor(attack * (hp_a / 100) - defense * (hp_d / 100) * (1 + terrainDefense / 100) / 2)). -/
def attackDamage2 (attacker defender : Unit2) (terrain : Terrain2) : Int :=
  let attackerStats := UNIT_STATS attacker.type
  let defenderStats := UNIT_STATS defender.type
  let terrainDefense : ℚ := TERRAIN_DEFENSE terrain
  max 1 (Int.floor ((attackerStats.attack : ℚ) * ((attacker.hp : ℚ) / 100) -
    (defenderStats.defense : ℚ) * ((defender.hp : ℚ) / 100) * (1 + terrainDefense / 100) / 2))

/-- performAttack of Game2: the defender hp becomes max(0, hp - damage); at 0
the defender is removed from its tile.  Only the defender tile is written.
Returns none when either endpoint holds no unit (the source dereferences both
unconditionally). -/
def performAttack (g : Grid2) (fromX fromY toX toY : Nat) : Option Grid2 :=
  match (g.tile fromX fromY).unit, (g.tile toX toY).unit with
  | some attacker, some defender =>
    let damage := attackDamage2 attacker defender (g.tile toX toY).terrain
    let newHp : Int := max 0 (defender.hp - damage)
    let newUnit : Option Unit2 := if newHp ≤ 0 then none else some { defender with hp := newHp }
    some (setTile2 g toX toY { g.tile toX toY with unit := newUnit })
  | _, _ => none

/-- MAX_ACTION_POINTS of Game2. -/
def MAX_ACTION_POINTS : Nat := 10

/-- AP_RECOVERY_INTERVAL of Game2, in milliseconds. -/
def AP_RECOVERY_INTERVAL : Int := 60000

/-- One action-point recovery check for one player, from the interval effect
of Game2: when at least AP_RECOVERY_INTERVAL ms have passed since the last
recovery and the pool is below MAX_ACTION_POINTS, add one point (capped) and
record the current time as the last recovery time; otherwise change nothing.
Returns (new pool, new last-recovery timestamp). -/
def recoverAp (ap : Nat) (lastApRecovery now : Int) : Nat × Int :=
  if now - lastApRecovery ≥ AP_RECOVERY_INTERVAL then
    if ap < MAX_ACTION_POINTS then
      (min MAX_ACTION_POINTS (ap + 1), now)
    else (ap, lastApRecovery)
  else (ap, lastApRecovery)

/-- Reachability along enqueue-compliant paths: Reach g pl ox oy budget x y r
holds when some 4-directional path from (ox, oy) arrives at (x, y) with r
movement budget left, every step entering an in-bounds tile that is unoccupied
or occupied by an own-faction unit, paying 2 per mountain tile and 1
otherwise, never letting the remaining budget go negative. -/
inductive Reach (g : Grid2) (pl : Player2) (ox oy : Nat) (budget : Nat) :
    Nat → Nat → Nat → Prop
  | origin : Reach g pl ox oy budget ox oy budget
  | step {x y r : Nat} {d : Int × Int} {nx ny : Nat}
      (hprev : Reach g pl ox oy budget x y r)
      (hd : d ∈ directions)
      (hx : (nx : Int) = (x : Int) + d.1)
      (hy : (ny : Int) = (y : Int) + d.2)
      (hxw : nx < gridWidth)
      (hyh : ny < gridHeight)
      (henter : canEnter2 pl (g.tile nx ny) = true)
      (hcost : moveCost2 (g.tile nx ny).terrain ≤ r) :
      Reach g pl ox oy budget nx ny (r - moveCost2 (g.tile nx ny).terrain)

/-! ## Turn-based variant (Game.tsx; extended copy appended in Game2.tsx) -/

inductive PlayerG where
  | red
  | blue
deriving DecidableEq, Repr

inductive UnitKindG where
  | infantry
  | tank
  | artillery
  | apc
deriving DecidableEq, Repr

inductive TerrainKindG where
  | plain
  | mountain
  | forest
  | city
  | road
deriving DecidableEq, Repr

/-- Terrain record of Game.tsx; isCity is the optional flag added by the
extended copy (false everywhere in the base file except the City entry). -/
structure TerrainG where
  type : TerrainKindG
  defenseBonus : ℚ
  movementCost : ℚ
  isCity : Bool := false
deriving DecidableEq, Repr

/-- The TERRAIN_TYPES table of Game.tsx (extended copy flags City tiles). -/
def TERRAIN_TYPES : TerrainKindG → TerrainG
  | .plain => { type := .plain, defenseBonus := 0, movementCost := 1 }
  | .mountain => { type := .mountain, defenseBonus := 30, movementCost := 3 }
  | .forest => { type := .forest, defenseBonus := 10, movementCost := 2 }
  | .city => { type := .city, defenseBonus := 20, movementCost := 1, isCity := true }
  | .road => { type := .road, defenseBonus := 0, movementCost := 1 / 2 }

/-- Unit record of Game.tsx. -/
structure UnitG where
  id : String
  type : UnitKindG
  health : ℚ
  attack : ℚ
  defense : ℚ
  moveRange : Nat
  attackRange : Nat
  position : Nat × Nat
  hasMoved : Bool
  hasAttacked : Bool
  player : PlayerG
deriving DecidableEq, Repr

/-- Base stats of a unit kind: the UNIT_TYPES table of Game.tsx. -/
structure UnitBase where
  health : ℚ
  attack : ℚ
  defense : ℚ
  moveRange : Nat
  attackRange : Nat
deriving DecidableEq, Repr

/-- The UNIT_TYPES table of Game.tsx. -/
def UNIT_TYPES : UnitKindG → UnitBase
  | .infantry => { health := 100, attack := 55, defense := 10, moveRange := 3, attackRange := 1 }
  | .tank => { health := 100, attack := 75, defense := 30, moveRange := 5, attackRange := 1 }
  | .artillery => { health := 100, attack := 90, defense := 5, moveRange := 3, attackRange := 3 }
  | .apc => { health := 100, attack := 0, defense := 15, moveRange := 6, attackRange := 0 }

/-- createUnit of Game.tsx; the random id is passed explicitly. -/
def createUnit (t : UnitKindG) (pos : Nat × Nat) (pl : PlayerG) (id : String) : UnitG :=
  let b := UNIT_TYPES t
  { id := id, type := t, health := b.health, attack := b.attack, defense := b.defense,
    moveRange := b.moveRange, attackRange := b.attackRange, position := pos,
    hasMoved := false, hasAttacked := false, player := pl }

/-- Tile record of Game.tsx. -/
structure TileG where
  position : Nat × Nat
  terrain : TerrainG
  unit : Option UnitG
deriving DecidableEq, Repr

/-- The board of Game.tsx, a total function from coordinates to tiles; the
source stores a GRID_SIZE x GRID_SIZE array and always bounds-checks indices. -/
structure GridG where
  tile : Nat → Nat → TileG

/-- GRID_SIZE of Game.tsx. -/
def GRID_SIZE : Nat := 10

/-- Replace one tile of the board, leaving all other tiles untouched. -/
def setTileG (g : GridG) (x y : Nat) (t : TileG) : GridG :=
  ⟨fun a b => if a = x ∧ b = y then t else g.tile a b⟩

/-- Math.max on rationals, written with an if so that concrete values compute. -/
def ratMax (a b : ℚ) : ℚ := if a ≤ b then b else a

/-- Math.min on rationals, written with an if so that concrete values compute. -/
def ratMin (a b : ℚ) : ℚ := if a ≤ b then a else b

theorem ratMax_eq (a b : ℚ) : ratMax a b = max a b := by
  unfold ratMax
  split_ifs with h
  · exact (max_eq_right h).symm
  · exact (max_eq_left (le_of_not_le h)).symm

theorem ratMin_eq (a b : ℚ) : ratMin a b = min a b := by
  unfold ratMin
  split_ifs with h
  · exact (min_eq_left h).symm
  · exact (min_eq_right (le_of_not_le h)).symm

/-- calculateDamage of Game.tsx:
min(defender.health, max(10, max(0, attack - (defense + defense * defenseBonus / 100)))). -/
def calculateDamage (attacker defender : UnitG) (defenderTerrain : TerrainG) : ℚ :=
  let terrainDefense := defender.defense * (defenderTerrain.defenseBonus / 100)
  let damage := ratMax 0 (attacker.attack - (defender.defense + terrainDefense))
  ratMin defender.health (ratMax 10 damage)

/-- Signed window offsets -range, ..., range used by the range scans. -/
def offsets (range : Nat) : List Int :=
  (List.range (2 * range + 1)).map fun i => (i : Int) - (range : Int)

/-- calculateMovementRange of Game.tsx: every in-bounds, unoccupied tile of
the (2 range + 1) square window around the unit whose Manhattan distance from
the unit is at most moveRange. -/
def calculateMovementRange (g : GridG) (u : UnitG) : List (Nat × Nat) :=
  let x := u.position.1
  let y := u.position.2
  (offsets u.moveRange).flatMap fun dx =>
    (offsets u.moveRange).filterMap fun dy =>
      let nxI : Int := (x : Int) + dx
      let nyI : Int := (y : Int) + dy
      if 0 ≤ nxI ∧ nxI < (GRID_SIZE : Int) ∧ 0 ≤ nyI ∧ nyI < (GRID_SIZE : Int) then
        if (g.tile nxI.toNat nyI.toNat).unit = none then
          if dx.natAbs + dy.natAbs ≤ u.moveRange then some (nxI.toNat, nyI.toNat) else none
        else none
      else none

/-- calculateAttackRange of Game.tsx: every in-bounds tile of the window
around the unit that holds an enemy unit within Manhattan distance
attackRange. -/
def calculateAttackRange (g : GridG) (u : UnitG) : List (Nat × Nat) :=
  let x := u.position.1
  let y := u.position.2
  (offsets u.attackRange).flatMap fun dx =>
    (offsets u.attackRange).filterMap fun dy =>
      let nxI : Int := (x : Int) + dx
      let nyI : Int := (y : Int) + dy
      if 0 ≤ nxI ∧ nxI < (GRID_SIZE : Int) ∧ 0 ≤ nyI ∧ nyI < (GRID_SIZE : Int) then
        match (g.tile nxI.toNat nyI.toNat).unit with
        | none => none
        | some v =>
          if v.player = u.player then none
          else if dx.natAbs + dy.natAbs ≤ u.attackRange then some (nxI.toNat, nyI.toNat) else none
      else none

/-- Display name of a player, used in status strings. -/
def playerNameG : PlayerG → String
  | .red => "Red"
  | .blue => "Blue"

/-- Display name of a unit kind, used in status strings. -/
def unitKindNameG : UnitKindG → String
  | .infantry => "Infantry"
  | .tank => "Tank"
  | .artillery => "Artillery"
  | .apc => "APC"

/-- The component state of Game.tsx that the engine commands read and write:
grid, selected unit, current player, cached ranges and the status line. -/
structure GameState where
  grid : GridG
  selectedUnit : Option UnitG
  currentPlayer : PlayerG
  movementRange : List (Nat × Nat)
  attackRange : List (Nat × Nat)
  gameStatus : String

/-- The opponent of a player. -/
def otherPlayer : PlayerG → PlayerG
  | .red => .blue
  | .blue => .red

/-- All coordinates of the GRID_SIZE x GRID_SIZE board. -/
def allCoords : List (Nat × Nat) :=
  (List.range GRID_SIZE).flatMap fun y => (List.range GRID_SIZE).map fun x => (x, y)

/-- Number of live units of a player on the board, as counted by the
game-over scan at the end of attackUnit. -/
def countUnits (g : GridG) (pl : PlayerG) : Nat :=
  allCoords.countP fun p =>
    match (g.tile p.1 p.2).unit with
    | some v => decide (v.player = pl)
    | none => false

/-- handleUnitSelect of Game.tsx.  Empty tile: clear the selection and both
cached ranges.  Enemy unit or a unit that has both moved and attacked: set a
status message only.  Otherwise select the unit and cache its movement range
(if it has not moved) or attack range (if it has not attacked and has positive
range). -/
def handleUnitSelect (x y : Nat) (s : GameState) : GameState :=
  match (s.grid.tile x y).unit with
  | none => { s with selectedUnit := none, movementRange := [], attackRange := [] }
  | some u =>
    if u.player ≠ s.currentPlayer then
      { s with gameStatus := "It is " ++ playerNameG s.currentPlayer ++ " turn" }
    else if u.hasMoved && u.hasAttacked then
      { s with gameStatus := "This unit has already moved and attacked this turn" }
    else
      let s1 := { s with selectedUnit := some u }
      if !u.hasMoved then
        { s1 with movementRange := calculateMovementRange s.grid u,
                  gameStatus := "Select a tile to move to" }
      else if !u.hasAttacked && decide (0 < u.attackRange) then
        { s1 with attackRange := calculateAttackRange s.grid u,
                  gameStatus := "Select an enemy unit to attack" }
      else s1

/-- attackUnit of Game.tsx: compute the damage, subtract it from the defender
health, write the attacker back (marked hasAttacked) at its own position,
remove the defender when its health drops to or below 0, clear the selection
and attack range, and run the game-over scan that overwrites the status with
the winner when a faction has no units left.  Returns none when the target
tile holds no unit (the source dereferences it unconditionally). -/
def attackUnit (attacker : UnitG) (x y : Nat) (s : GameState) : Option GameState :=
  match (s.grid.tile x y).unit with
  | none => none
  | some defender =>
    let terrain := (s.grid.tile x y).terrain
    let damage := calculateDamage attacker defender terrain
    let updatedDefender := { defender with health := defender.health - damage }
    let updatedAttacker := { attacker with hasAttacked := true }
    let ax := attacker.position.1
    let ay := attacker.position.2
    let g1 := setTileG s.grid ax ay { s.grid.tile ax ay with unit := some updatedAttacker }
    let hit :=
      if updatedDefender.health ≤ 0 then
        (setTileG g1 x y { g1.tile x y with unit := none },
         unitKindNameG defender.type ++ " destroyed!")
      else
        (setTileG g1 x y { g1.tile x y with unit := some updatedDefender },
         unitKindNameG defender.type ++ " took damage!")
    let redLeft := countUnits hit.1 PlayerG.red
    let blueLeft := countUnits hit.1 PlayerG.blue
    let finalStatus :=
      if redLeft = 0 then "Blue wins!"
      else if blueLeft = 0 then "Red wins!"
      else hit.2
    some { s with grid := hit.1, selectedUnit := none, attackRange := [],
                  gameStatus := finalStatus }

/-- endTurn of Game.tsx: reset hasMoved/hasAttacked on every unit of the
current player, hand the turn to the opponent, clear selection and ranges, and
announce the new turn.  (The city-income bookkeeping of the extended copy only
touches the resource pools and is omitted: no claim mentions it.) -/
def endTurn (s : GameState) : GameState :=
  let g : GridG := ⟨fun x y =>
    let t := s.grid.tile x y
    match t.unit with
    | some v =>
      if v.player = s.currentPlayer then
        { t with unit := some { v with hasMoved := false, hasAttacked := false } }
      else t
    | none => t⟩
  { grid := g, selectedUnit := none, currentPlayer := otherPlayer s.currentPlayer,
    movementRange := [], attackRange := [],
    gameStatus := playerNameG (otherPlayer s.currentPlayer) ++ " turn" }

/-- The mutable city fields of the extended copy in Game2.tsx: interface City
extends Terrain with an optional owner and a capture progress. -/
structure CityState where
  owner : Option PlayerG
  captureProgress : Nat
deriving DecidableEq, Repr

/-- The opening step of captureCity: when the city has an owner and that owner
differs from the capturing player, the capture progress is reset to 0. -/
def resetIfEnemyOwned (pl : PlayerG) (c : CityState) : CityState :=
  match c.owner with
  | some p => if p ≠ pl then { c with captureProgress := 0 } else c
  | none => c

/-- captureCity of the extended copy in Game2.tsx, on the city fields and the
capturing unit.  Only Infantry has a positive capture amount (50); a positive
amount is added to the progress, ownership flips and progress resets when the
total reaches 100, and the unit is marked hasAttacked.  A zero amount returns
false and changes nothing beyond the enemy-owner reset (which the source
applies to the grid in place before computing the amount). -/
def captureCity (u : UnitG) (c : CityState) : CityState × UnitG × Bool :=
  if u.type = UnitKindG.infantry then
    if (resetIfEnemyOwned u.player c).captureProgress + 50 ≥ 100 then
      ({ owner := some u.player, captureProgress := 0 }, { u with hasAttacked := true }, true)
    else
      ({ resetIfEnemyOwned u.player c with
         captureProgress := (resetIfEnemyOwned u.player c).captureProgress + 50 },
       { u with hasAttacked := true }, true)
  else
    (resetIfEnemyOwned u.player c, u, false)

/-! ## Board update lemmas -/

theorem setTile2_same (g : Grid2) (x y : Nat) (t : Tile2) :
    (setTile2 g x y t).tile x y = t := by
  simp [setTile2]

theorem setTile2_other (g : Grid2) (x y : Nat) (t : Tile2) (a b : Nat)
    (h : ¬(a = x ∧ b = y)) : (setTile2 g x y t).tile a b = g.tile a b := by
  simp [setTile2, h]

theorem setTileG_same (g : GridG) (x y : Nat) (t : TileG) :
    (setTileG g x y t).tile x y = t := by
  simp [setTileG]

theorem setTileG_other (g : GridG) (x y : Nat) (t : TileG) (a b : Nat)
    (h : ¬(a = x ∧ b = y)) : (setTileG g x y t).tile a b = g.tile a b := by
  simp [setTileG, h]

/-! ## Characterization of attackUnit, shared by several claims -/

/-- The defender tile after attackUnit: health reduced by the damage, removed
when that drops to or below zero. -/
theorem attackUnit_defender_tile (attacker : UnitG) (x y : Nat) (s : GameState)
    (defender : UnitG) (hd : (s.grid.tile x y).unit = some defender) :
    ((attackUnit attacker x y s).map fun s2 => (s2.grid.tile x y).unit) =
      some
        (if defender.health - calculateDamage attacker defender (s.grid.tile x y).terrain ≤ 0
         then none
         else some { defender with
           health := defender.health - calculateDamage attacker defender (s.grid.tile x y).terrain }) := by
  unfold attackUnit
  rw [hd]
  simp only [Option.map_some]
  split_ifs with h <;> simp [setTileG_same]

/-- The attacker tile after attackUnit: the attacker written back at its own
position, marked hasAttacked. -/
theorem attackUnit_attacker_tile (attacker : UnitG) (x y : Nat) (s : GameState)
    (defender : UnitG) (hd : (s.grid.tile x y).unit = some defender)
    (hpos : ¬(x = attacker.position.1 ∧ y = attacker.position.2)) :
    ((attackUnit attacker x y s).map fun s2 =>
        (s2.grid.tile attacker.position.1 attacker.position.2).unit) =
      some (some { attacker with hasAttacked := true }) := by
  unfold attackUnit
  rw [hd]
  simp only [Option.map_some]
  have hne : ¬(attacker.position.1 = x ∧ attacker.position.2 = y) := by
    intro hc
    exact hpos ⟨hc.1.symm, hc.2.symm⟩
  split_ifs with h <;> simp [setTileG_same, setTileG_other _ _ _ _ _ _ hne]

/-! ## Demonstration boards and states used by the concrete parts -/

/-- An empty plain tile of the time-driven variant. -/
def emptyTile2 : Tile2 := { terrain := Terrain2.plain, unit := none, owner := none }

/-- A plain empty tile of the turn-based variant at the given position. -/
def plainTileG (x y : Nat) : TileG :=
  { position := (x, y), terrain := TERRAIN_TYPES TerrainKindG.plain, unit := none }

/-- Attacker of the Model A worked example: a red Infantry (attack 55). -/
def c2Attacker : UnitG := createUnit UnitKindG.infantry (0, 0) PlayerG.red "c2a"

/-- Defender of the Model A worked example: a blue Infantry (defense 10,
health 100) standing on a city tile (defense bonus 20). -/
def c2Defender : UnitG := createUnit UnitKindG.infantry (1, 0) PlayerG.blue "c2d"

/-- Board of the Model A worked example. -/
def c2Grid : GridG := ⟨fun x y =>
  if x = 0 ∧ y = 0 then { plainTileG 0 0 with unit := some c2Attacker }
  else if x = 1 ∧ y = 0 then
    { position := (1, 0), terrain := TERRAIN_TYPES TerrainKindG.city, unit := some c2Defender }
  else plainTileG x y⟩

/-- Match state of the Model A worked example. -/
def c2State : GameState :=
  { grid := c2Grid, selectedUnit := some c2Attacker, currentPlayer := PlayerG.red,
    movementRange := [], attackRange := [(1, 0)], gameStatus := "" }

/-! ## C2 -/

/-- C2: under Model A the damage always equals
attack - (defense + defense * defenseBonus / 100) clamped below at 10 and
above at the defender health, and on the worked example (attack 55, defense
10, city bonus 20, health 100) the damage is 43 and the attacked defender is
left on its tile with health 57. -/
theorem c2_damage_model_a :
    (∀ (attacker defender : UnitG) (t : TerrainG),
      calculateDamage attacker defender t =
        min defender.health
          (max 10 (attacker.attack - (defender.defense + defender.defense * (t.defenseBonus / 100))))) ∧
    calculateDamage c2Attacker c2Defender (TERRAIN_TYPES TerrainKindG.city) = 43 ∧
    ((attackUnit c2Attacker 1 0 c2State).map fun s => (s.grid.tile 1 0).unit) =
      some (some { c2Defender with health := 57 }) := by
  have h43 : calculateDamage c2Attacker c2Defender (TERRAIN_TYPES TerrainKindG.city) = 43 := by
    show ratMin (100 : ℚ) (ratMax 10 (ratMax 0 (55 - (10 + 10 * (20 / 100))))) = 43
    norm_num [ratMin, ratMax]
  refine ⟨fun attacker defender t => ?_, h43, ?_⟩
  · show ratMin defender.health (ratMax 10 (ratMax 0 _)) = _
    rw [ratMin_eq, ratMax_eq, ratMax_eq, ← max_assoc, max_eq_left (by norm_num : (0 : ℚ) ≤ 10)]
  · rw [attackUnit_defender_tile c2Attacker 1 0 c2State c2Defender rfl]
    rw [show (c2State.grid.tile 1 0).terrain = TERRAIN_TYPES TerrainKindG.city from rfl, h43]
    norm_num [show c2Defender.health = (100 : ℚ) from rfl]

/-! ## C9 -/

/-- C9: action-point recovery has a strict 60000 ms boundary: from 5 points
with last recovery at t0, a tick at t0 + 60000 yields 6 points and updates the
timestamp, a tick at t0 + 59999 leaves 5 points and the old timestamp, and the
pool never exceeds the cap of 10. -/
theorem c9_ap_recovery :
    (∀ t0 : Int,
      recoverAp 5 t0 (t0 + 60000) = (6, t0 + 60000) ∧
      recoverAp 5 t0 (t0 + 59999) = (5, t0)) ∧
    (∀ (ap : Nat) (last now : Int), ap ≤ MAX_ACTION_POINTS →
      (recoverAp ap last now).1 ≤ MAX_ACTION_POINTS) := by
  constructor
  · intro t0
    constructor
    · unfold recoverAp
      rw [if_pos (by unfold AP_RECOVERY_INTERVAL; omega), if_pos (by decide)]
      exact Prod.ext (show MAX_ACTION_POINTS ⊓ (5 + 1) = 6 by unfold MAX_ACTION_POINTS; omega) rfl
    · unfold recoverAp
      rw [if_neg (by unfold AP_RECOVERY_INTERVAL; omega)]
  · intro ap last now hap
    unfold recoverAp
    split_ifs <;> simp [MAX_ACTION_POINTS] at hap ⊢ <;> omega

/-- Witness for C9 at concrete inputs. -/
theorem c9_ap_recovery_witness :
    recoverAp 5 0 60000 = (6, 60000) ∧
    recoverAp 5 0 59999 = (5, 0) ∧
    (recoverAp 10 0 123456).1 ≤ MAX_ACTION_POINTS :=
  ⟨(c9_ap_recovery.1 0).1, (c9_ap_recovery.1 0).2,
    c9_ap_recovery.2 10 0 123456 (by decide)⟩

/-! ## C5 -/

/-- C5: capture mechanics of captureCity.  Non-Infantry units never accumulate
progress, never flip ownership and do not use their action (only the
enemy-owner reset applies).  When the city has an owner of the other faction,
progress restarts from 0, so an Infantry capture then yields progress 50 with
ownership unchanged.  An Infantry capture always adds exactly 50 to the
(possibly reset) progress, marks the unit hasAttacked and reports success; at
a total of at least 100 ownership transfers to the capturing player and
progress resets to 0.  Hence two successive Infantry captures from progress 0
with no enemy owner leave the city owned by the capturing player at progress 0. -/
theorem c5_capture_mechanics :
    (∀ (u : UnitG) (c : CityState), u.type ≠ UnitKindG.infantry →
      captureCity u c = (resetIfEnemyOwned u.player c, u, false)) ∧
    (∀ (u : UnitG) (c : CityState) (p : PlayerG), u.type = UnitKindG.infantry →
      c.owner = some p → p ≠ u.player →
      (captureCity u c).1 = { owner := some p, captureProgress := 50 }) ∧
    (∀ (u : UnitG) (c : CityState), u.type = UnitKindG.infantry →
      (captureCity u c).2.2 = true ∧
      (captureCity u c).2.1 = { u with hasAttacked := true } ∧
      (100 ≤ (resetIfEnemyOwned u.player c).captureProgress + 50 →
        (captureCity u c).1 = { owner := some u.player, captureProgress := 0 }) ∧
      ((resetIfEnemyOwned u.player c).captureProgress + 50 < 100 →
        (captureCity u c).1 = { resetIfEnemyOwned u.player c with
          captureProgress := (resetIfEnemyOwned u.player c).captureProgress + 50 })) ∧
    (∀ (u : UnitG) (c : CityState), u.type = UnitKindG.infantry →
      c.captureProgress = 0 → (c.owner = none ∨ c.owner = some u.player) →
      (captureCity u (captureCity u c).1).1 =
        { owner := some u.player, captureProgress := 0 }) := by
  refine ⟨?_, ?_, ?_, ?_⟩
  · intro u c hu
    unfold captureCity
    rw [if_neg hu]
  · intro u c p hu hc hp
    rcases c with ⟨o, pr⟩
    have ho : o = some p := hc
    subst ho
    have h1 : resetIfEnemyOwned u.player ⟨some p, pr⟩ = ⟨some p, 0⟩ := by
      unfold resetIfEnemyOwned
      simp [hp]
    unfold captureCity
    rw [if_pos hu, h1, if_neg (by norm_num)]
  · intro u c hu
    unfold captureCity
    rw [if_pos hu]
    refine ⟨?_, ?_, ?_, ?_⟩
    · split_ifs <;> rfl
    · split_ifs <;> rfl
    · intro h100
      rw [if_pos h100]
    · intro hlt
      rw [if_neg (by omega)]
  · intro u c hu h0 hown
    rcases c with ⟨o, pr⟩
    have hpr : pr = 0 := h0
    subst hpr
    have hr : ∀ q, resetIfEnemyOwned u.player ⟨o, q⟩ = ⟨o, q⟩ := by
      intro q
      rcases hown with h | h <;> rw [show o = _ from h] <;> simp [resetIfEnemyOwned]
    have hfirst : (captureCity u ⟨o, 0⟩).1 = ⟨o, 50⟩ := by
      unfold captureCity
      rw [if_pos hu, hr 0, if_neg (by norm_num)]
    rw [hfirst]
    unfold captureCity
    rw [if_pos hu, hr 50, if_pos (by norm_num)]

/-- Tank used by the C5 witness. -/
def c5Tank : UnitG := createUnit UnitKindG.tank (0, 0) PlayerG.red "c5t"

/-- Infantry used by the C5 witness. -/
def c5Infantry : UnitG := createUnit UnitKindG.infantry (0, 0) PlayerG.red "c5i"

/-- Witness for C5 at concrete inputs. -/
theorem c5_capture_mechanics_witness :
    captureCity c5Tank ⟨some PlayerG.blue, 70⟩ =
      (resetIfEnemyOwned PlayerG.red ⟨some PlayerG.blue, 70⟩, c5Tank, false) ∧
    (captureCity c5Infantry ⟨some PlayerG.blue, 70⟩).1 = ⟨some PlayerG.blue, 50⟩ ∧
    (captureCity c5Infantry ⟨none, 0⟩).2.2 = true ∧
    (captureCity c5Infantry (captureCity c5Infantry ⟨none, 0⟩).1).1 =
      ⟨some PlayerG.red, 0⟩ :=
  ⟨c5_capture_mechanics.1 c5Tank ⟨some PlayerG.blue, 70⟩ (by decide),
   c5_capture_mechanics.2.1 c5Infantry ⟨some PlayerG.blue, 70⟩ PlayerG.blue
     (by decide) rfl (by decide),
   (c5_capture_mechanics.2.2.1 c5Infantry ⟨none, 0⟩ (by decide)).1,
   c5_capture_mechanics.2.2.2 c5Infantry ⟨none, 0⟩ (by decide) rfl (Or.inl rfl)⟩

/-! ## C8 -/

/-- C8: selecting a unit of the non-acting faction, or one that has both
moved and attacked, only sets the status line: the grid, the current player,
the selection and both cached ranges are unchanged. -/
theorem c8_failed_selection_preserves_state (x y : Nat) (s : GameState) (u : UnitG)
    (hu : (s.grid.tile x y).unit = some u)
    (hfail : u.player ≠ s.currentPlayer ∨ (u.hasMoved = true ∧ u.hasAttacked = true)) :
    (handleUnitSelect x y s).grid = s.grid ∧
    (handleUnitSelect x y s).currentPlayer = s.currentPlayer ∧
    (handleUnitSelect x y s).selectedUnit = s.selectedUnit ∧
    (handleUnitSelect x y s).movementRange = s.movementRange ∧
    (handleUnitSelect x y s).attackRange = s.attackRange := by
  simp only [handleUnitSelect, hu]
  rcases hfail with h | ⟨h1, h2⟩
  · rw [if_pos h]
    exact ⟨rfl, rfl, rfl, rfl, rfl⟩
  · by_cases hp : u.player ≠ s.currentPlayer
    · rw [if_pos hp]
      exact ⟨rfl, rfl, rfl, rfl, rfl⟩
    · rw [if_neg hp, if_pos (by simp [h1, h2])]
      exact ⟨rfl, rfl, rfl, rfl, rfl⟩

/-- Enemy unit used by the C8 witness: a blue Infantry while red is acting. -/
def c8Enemy : UnitG := createUnit UnitKindG.infantry (3, 3) PlayerG.blue "c8e"

/-- Board of the C8 witness. -/
def c8Grid : GridG := ⟨fun x y =>
  if x = 3 ∧ y = 3 then { plainTileG 3 3 with unit := some c8Enemy }
  else plainTileG x y⟩

/-- State of the C8 witness. -/
def c8State : GameState :=
  { grid := c8Grid, selectedUnit := none, currentPlayer := PlayerG.red,
    movementRange := [(9, 9)], attackRange := [], gameStatus := "Select a unit to move" }

/-- Witness for C8 at concrete inputs. -/
theorem c8_failed_selection_preserves_state_witness :
    (handleUnitSelect 3 3 c8State).grid = c8State.grid ∧
    (handleUnitSelect 3 3 c8State).currentPlayer = c8State.currentPlayer ∧
    (handleUnitSelect 3 3 c8State).selectedUnit = c8State.selectedUnit ∧
    (handleUnitSelect 3 3 c8State).movementRange = c8State.movementRange ∧
    (handleUnitSelect 3 3 c8State).attackRange = c8State.attackRange :=
  c8_failed_selection_preserves_state 3 3 c8State c8Enemy rfl (Or.inl (by decide))

/-! ## C10 -/

/-- C10: in the time-driven variant, moving any unit onto a city tile whose
owner differs from the moving player (including a neutral city) immediately
transfers ownership to that player; otherwise the owner is unchanged.  The
unit itself is moved from the source tile to the destination tile.  Tiles of
this variant carry no capture progress and captureCity is never involved. -/
theorem c10_city_ownership_on_entry (g : Grid2) (fromX fromY toX toY : Nat)
    (u : Unit2) (g2 : Grid2)
    (hu : (g.tile fromX fromY).unit = some u)
    (hne : ¬(fromX = toX ∧ fromY = toY))
    (hm : moveUnit2 g fromX fromY toX toY = some g2) :
    (g2.tile toX toY).unit = some u ∧
    (g2.tile fromX fromY).unit = none ∧
    (g2.tile toX toY).terrain = (g.tile toX toY).terrain ∧
    (g2.tile toX toY).owner =
      (if (g.tile toX toY).terrain = Terrain2.city ∧ (g.tile toX toY).owner ≠ some u.player
       then some u.player
       else (g.tile toX toY).owner) := by
  unfold moveUnit2 at hm
  rw [hu] at hm
  have hne2 : ¬(toX = fromX ∧ toY = fromY) := fun hc => hne ⟨hc.1.symm, hc.2.symm⟩
  simp only [setTile2_same, setTile2_other _ _ _ _ _ _ hne2,
    setTile2_other _ _ _ _ _ _ hne] at hm
  split_ifs at hm with hcity
  · cases hm
    refine ⟨?_, ?_, ?_, ?_⟩ <;>
      simp only [setTile2_same, setTile2_other _ _ _ _ _ _ hne2,
        setTile2_other _ _ _ _ _ _ hne]
    rw [if_pos hcity]
  · cases hm
    refine ⟨?_, ?_, ?_, ?_⟩ <;>
      simp only [setTile2_same, setTile2_other _ _ _ _ _ _ hne2,
        setTile2_other _ _ _ _ _ _ hne]
    rw [if_neg hcity]

/-- Unit used by the C10 witness: a player-2 tank entering a neutral city. -/
def c10Unit : Unit2 := { type := UnitKind2.tank, player := Player2.p2, hp := 100 }

/-- Board of the C10 witness: the tank at (5, 5), a neutral city at (6, 5). -/
def c10Grid : Grid2 := ⟨fun x y =>
  if x = 5 ∧ y = 5 then { emptyTile2 with unit := some c10Unit }
  else if x = 6 ∧ y = 5 then { terrain := Terrain2.city, unit := none, owner := none }
  else emptyTile2⟩

/-- Board after the C10 witness move. -/
def c10After : Grid2 := (moveUnit2 c10Grid 5 5 6 5).getD c10Grid

/-- Witness for C10 at concrete inputs. -/
theorem c10_city_ownership_on_entry_witness :
    (c10After.tile 6 5).unit = some c10Unit ∧
    (c10After.tile 5 5).unit = none ∧
    (c10After.tile 6 5).terrain = (c10Grid.tile 6 5).terrain ∧
    (c10After.tile 6 5).owner =
      (if (c10Grid.tile 6 5).terrain = Terrain2.city ∧ (c10Grid.tile 6 5).owner ≠ some c10Unit.player
       then some c10Unit.player
       else (c10Grid.tile 6 5).owner) :=
  c10_city_ownership_on_entry c10Grid 5 5 6 5 c10Unit c10After rfl (by decide) rfl

/-! ## C6 -/

/-- C6: after a resolved attack the defender health equals
max(0, previous health - damage) and the defender is removed from its tile
exactly when that is 0; the attacker is written back at its own unchanged
position, marked hasAttacked in the turn-based variant (the time-driven
variant has no such flag and leaves the attacker tile untouched).  In the
turn-based variant the damage clamp makes health - damage equal
max(0, health - damage); the time-driven variant applies max(0, _) directly. -/
theorem c6_post_attack :
    (∀ (s : GameState) (attacker : UnitG) (x y : Nat) (defender : UnitG),
      (s.grid.tile x y).unit = some defender →
      ¬(x = attacker.position.1 ∧ y = attacker.position.2) →
      (defender.health - calculateDamage attacker defender ((s.grid.tile x y).terrain) =
        max 0 (defender.health - calculateDamage attacker defender ((s.grid.tile x y).terrain))) ∧
      ((attackUnit attacker x y s).map fun s2 => (s2.grid.tile x y).unit) =
        some (if defender.health - calculateDamage attacker defender ((s.grid.tile x y).terrain) ≤ 0
              then none
              else some { defender with
                health := defender.health - calculateDamage attacker defender ((s.grid.tile x y).terrain) }) ∧
      ((attackUnit attacker x y s).map fun s2 =>
          (s2.grid.tile attacker.position.1 attacker.position.2).unit) =
        some (some { attacker with hasAttacked := true }) ∧
      ({ attacker with hasAttacked := true } : UnitG).position = attacker.position) ∧
    (∀ (g : Grid2) (fromX fromY toX toY : Nat) (attacker defender : Unit2) (g2 : Grid2),
      (g.tile fromX fromY).unit = some attacker →
      (g.tile toX toY).unit = some defender →
      ¬(fromX = toX ∧ fromY = toY) →
      performAttack g fromX fromY toX toY = some g2 →
      (g2.tile toX toY).unit =
        (if max 0 (defender.hp - attackDamage2 attacker defender ((g.tile toX toY).terrain)) = 0
         then none
         else some { defender with
           hp := max 0 (defender.hp - attackDamage2 attacker defender ((g.tile toX toY).terrain)) }) ∧
      g2.tile fromX fromY = g.tile fromX fromY) := by
  constructor
  · intro s attacker x y defender hd hpos
    refine ⟨?_, attackUnit_defender_tile attacker x y s defender hd,
      attackUnit_attacker_tile attacker x y s defender hd hpos, rfl⟩
    have hle : calculateDamage attacker defender ((s.grid.tile x y).terrain) ≤ defender.health := by
      show ratMin defender.health _ ≤ defender.health
      rw [ratMin_eq]
      exact min_le_left _ _
    exact (max_eq_right (sub_nonneg.mpr hle)).symm
  · intro g fromX fromY toX toY attacker defender g2 ha hd hne hp
    unfold performAttack at hp
    rw [ha, hd] at hp
    simp only [Option.some.injEq] at hp
    subst hp
    have hnn : 0 ≤ max 0 (defender.hp - attackDamage2 attacker defender ((g.tile toX toY).terrain)) :=
      le_max_left _ _
    refine ⟨?_, ?_⟩
    · rw [setTile2_same]
      dsimp only
      by_cases h0 : max 0 (defender.hp - attackDamage2 attacker defender ((g.tile toX toY).terrain)) = 0
      · rw [if_pos (le_of_eq h0), if_pos h0]
      · rw [if_neg (fun hc => h0 (le_antisymm hc hnn)), if_neg h0]
    · rw [setTile2_other _ _ _ _ _ _ hne]

/-- Attacker of the C6 time-driven witness scenario. -/
def c6Attacker2 : Unit2 := { type := UnitKind2.infantry, player := Player2.p1, hp := 100 }

/-- Defender of the C6 time-driven witness scenario. -/
def c6Defender2 : Unit2 := { type := UnitKind2.infantry, player := Player2.p2, hp := 100 }

/-- Board of the C6 time-driven witness scenario. -/
def c6Grid2 : Grid2 := ⟨fun x y =>
  if x = 0 ∧ y = 0 then { emptyTile2 with unit := some c6Attacker2 }
  else if x = 1 ∧ y = 0 then { emptyTile2 with unit := some c6Defender2 }
  else emptyTile2⟩

/-- Board after the C6 witness attack. -/
def c6After2 : Grid2 := (performAttack c6Grid2 0 0 1 0).getD c6Grid2

/-- Witness for C6 at concrete inputs in both variants. -/
theorem c6_post_attack_witness :
    (c2Defender.health - calculateDamage c2Attacker c2Defender ((c2State.grid.tile 1 0).terrain) =
      max 0 (c2Defender.health - calculateDamage c2Attacker c2Defender ((c2State.grid.tile 1 0).terrain))) ∧
    ((attackUnit c2Attacker 1 0 c2State).map fun s2 =>
        (s2.grid.tile c2Attacker.position.1 c2Attacker.position.2).unit) =
      some (some { c2Attacker with hasAttacked := true }) ∧
    (c6After2.tile 1 0).unit =
      (if max 0 (c6Defender2.hp - attackDamage2 c6Attacker2 c6Defender2 ((c6Grid2.tile 1 0).terrain)) = 0
       then none
       else some { c6Defender2 with
         hp := max 0 (c6Defender2.hp - attackDamage2 c6Attacker2 c6Defender2 ((c6Grid2.tile 1 0).terrain)) }) ∧
    c6After2.tile 0 0 = c6Grid2.tile 0 0 :=
  ⟨(c6_post_attack.1 c2State c2Attacker 1 0 c2Defender rfl (by decide)).1,
   (c6_post_attack.1 c2State c2Attacker 1 0 c2Defender rfl (by decide)).2.2.1,
   (c6_post_attack.2 c6Grid2 0 0 1 0 c6Attacker2 c6Defender2 c6After2 rfl rfl (by decide) rfl).1,
   (c6_post_attack.2 c6Grid2 0 0 1 0 c6Attacker2 c6Defender2 c6After2 rfl rfl (by decide) rfl).2⟩

/-! ## C3 -/

/-- The attackTarget scan cell succeeds exactly on an enemy-held tile within
the min/max Manhattan range band. -/
theorem attackTarget_eq_some (g : Grid2) (u : Unit2) (x y tx ty : Nat) (p : Nat × Nat) :
    attackTarget g u x y tx ty = some p ↔
      p = (tx, ty) ∧
      (UNIT_STATS u.type).minRange ≤ manhattan x y tx ty ∧
      manhattan x y tx ty ≤ (UNIT_STATS u.type).maxRange ∧
      ∃ tu, (g.tile tx ty).unit = some tu ∧ tu.player ≠ u.player := by
  unfold attackTarget
  cases hunit : (g.tile tx ty).unit with
  | none => simp
  | some tu =>
    dsimp only
    split_ifs with hcond
    · simp only [Option.some.injEq]
      constructor
      · rintro rfl
        exact ⟨rfl, hcond.1, hcond.2.1, tu, rfl, hcond.2.2⟩
      · rintro ⟨hp, _⟩
        exact hp.symm
    · constructor
      · intro h
        simp at h
      · rintro ⟨hp, h1, h2, tu2, htu, hne⟩
        cases htu
        exact absurd ⟨h1, h2, hne⟩ hcond

/-- Membership in calculateValidAttacks, characterized extensionally. -/
theorem mem_calculateValidAttacks (g : Grid2) (x y : Nat) (u : Unit2)
    (hu : (g.tile x y).unit = some u) (p : Nat × Nat) :
    p ∈ calculateValidAttacks g x y ↔
      p.1 < gridWidth ∧ p.2 < gridHeight ∧
      (UNIT_STATS u.type).minRange ≤ manhattan x y p.1 p.2 ∧
      manhattan x y p.1 p.2 ≤ (UNIT_STATS u.type).maxRange ∧
      ∃ tu, (g.tile p.1 p.2).unit = some tu ∧ tu.player ≠ u.player := by
  unfold calculateValidAttacks
  rw [hu]
  simp only [List.mem_flatMap, List.mem_filterMap, List.mem_range, attackTarget_eq_some]
  constructor
  · rintro ⟨a, ha, b, hb, hpe, h1, h2, tu, htu, hne⟩
    subst hpe
    exact ⟨hb, ha, h1, h2, tu, htu, hne⟩
  · rintro ⟨h1, h2, h3, h4, tu, htu, hne⟩
    exact ⟨p.2, h2, p.1, h1, rfl, h3, h4, tu, htu, hne⟩

/-- Artillery of the C3 demonstration board, at (2, 2). -/
def c3Unit : Unit2 := { type := UnitKind2.artillery, player := Player2.p1, hp := 100 }

/-- An enemy infantry for the C3 demonstration board. -/
def c3Enemy : Unit2 := { type := UnitKind2.infantry, player := Player2.p2, hp := 100 }

/-- C3 demonstration board: artillery (minRange 2, maxRange 3) at (2, 2),
enemies at (2, 4) (distance 2), (2, 3) (distance 1) and (2, 6) (distance 4). -/
def c3Grid : Grid2 := ⟨fun x y =>
  if x = 2 ∧ y = 2 then { emptyTile2 with unit := some c3Unit }
  else if x = 2 ∧ (y = 4 ∨ y = 3 ∨ y = 6) then { emptyTile2 with unit := some c3Enemy }
  else emptyTile2⟩

/-- C3: a board tile is attackable iff its Manhattan distance from the unit
lies between minRange and maxRange and it holds a unit of the other faction;
the artillery at (2, 2) with minRange 2 and maxRange 3 can target the enemy at
(2, 4) but not at (2, 3) or (2, 6); and in the turn-based variant a unit with
attackRange 0 standing on its own tile always has an empty attack set. -/
theorem c3_attackable_set (g : Grid2) (x y tx ty : Nat) (u : Unit2)
    (hu : (g.tile x y).unit = some u) :
    ((tx, ty) ∈ calculateValidAttacks g x y ↔
      tx < gridWidth ∧ ty < gridHeight ∧
      (UNIT_STATS u.type).minRange ≤ manhattan x y tx ty ∧
      manhattan x y tx ty ≤ (UNIT_STATS u.type).maxRange ∧
      ∃ tu, (g.tile tx ty).unit = some tu ∧ tu.player ≠ u.player) ∧
    ((2, 4) ∈ calculateValidAttacks c3Grid 2 2 ∧
     (2, 3) ∉ calculateValidAttacks c3Grid 2 2 ∧
     (2, 6) ∉ calculateValidAttacks c3Grid 2 2) ∧
    (∀ (gg : GridG) (v : UnitG), v.attackRange = 0 →
      (gg.tile v.position.1 v.position.2).unit = some v →
      calculateAttackRange gg v = []) := by
  refine ⟨mem_calculateValidAttacks g x y u hu (tx, ty), ⟨by decide, by decide, by decide⟩, ?_⟩
  intro gg v h0 hv
  rw [List.eq_nil_iff_forall_not_mem]
  intro p hp
  unfold calculateAttackRange at hp
  simp only [List.mem_flatMap, List.mem_filterMap] at hp
  obtain ⟨dx, hdx, dy, hdy, hbody⟩ := hp
  rw [h0] at hdx hdy
  have hdx0 : dx = 0 := by simpa [offsets] using hdx
  have hdy0 : dy = 0 := by simpa [offsets] using hdy
  subst hdx0
  subst hdy0
  simp only [add_zero, Int.toNat_natCast] at hbody
  rw [hv] at hbody
  simp at hbody

/-- Witness for C3 at concrete inputs: the iff instantiated on the
demonstration board at the attackable enemy position. -/
theorem c3_attackable_set_witness :
    ((2, 4) ∈ calculateValidAttacks c3Grid 2 2 ↔
      2 < gridWidth ∧ 4 < gridHeight ∧
      (UNIT_STATS c3Unit.type).minRange ≤ manhattan 2 2 2 4 ∧
      manhattan 2 2 2 4 ≤ (UNIT_STATS c3Unit.type).maxRange ∧
      ∃ tu, (c3Grid.tile 2 4).unit = some tu ∧ tu.player ≠ c3Unit.player) ∧
    (2, 3) ∉ calculateValidAttacks c3Grid 2 2 :=
  ⟨(c3_attackable_set c3Grid 2 2 2 4 c3Unit rfl).1,
   (c3_attackable_set c3Grid 2 2 2 4 c3Unit rfl).2.1.2.1⟩

/-! ## C4 -/

/-- The BFS loop only ever adds positions to the accumulated moves list. -/
theorem bfsLoop_subset (g : Grid2) (pl : Player2) :
    ∀ (fuel : Nat) (queue : List BfsNode) (visited moves : List (Nat × Nat)),
      moves ⊆ bfsLoop g pl fuel queue visited moves := by
  intro fuel
  induction fuel with
  | zero => intro queue visited moves; exact fun _ h => h
  | succ n ih =>
    intro queue visited moves
    cases queue with
    | nil => exact fun _ h => h
    | cons cur rest =>
      intro p hp
      exact ih _ _ _ (List.mem_cons_of_mem _ hp)

/-- The position of the head of a nonempty queue is always recorded as a
valid move when fuel remains. -/
theorem mem_bfsLoop_head (g : Grid2) (pl : Player2) (fuel : Nat) (cur : BfsNode)
    (rest : List BfsNode) (visited moves : List (Nat × Nat)) (hf : fuel ≠ 0) :
    (cur.x, cur.y) ∈ bfsLoop g pl fuel (cur :: rest) visited moves := by
  cases fuel with
  | zero => exact absurd rfl hf
  | succ n =>
    exact bfsLoop_subset g pl n _ _ _ (List.mem_cons_self _ _)

/-- Unit standing at the origin of the C4 counterexample board. -/
def c4Unit2 : Unit2 := { type := UnitKind2.infantry, player := Player2.p1, hp := 100 }

/-- C4 counterexample board: a single unit at (0, 0) on an otherwise empty
plain board. -/
def c4Grid2 : Grid2 := ⟨fun x y =>
  if x = 0 ∧ y = 0 then { emptyTile2 with unit := some c4Unit2 } else emptyTile2⟩

/-- Counterexample to C4: in the time-driven variant the origin tile IS
contained in the computed valid-move set of the unit standing on it. -/
theorem c4_counterexample :
    (c4Grid2.tile 0 0).unit = some c4Unit2 ∧
    (0, 0) ∈ calculateValidMoves c4Grid2 0 0 :=
  ⟨rfl, mem_bfsLoop_head c4Grid2 Player2.p1 (gridWidth * gridHeight)
    ⟨0, 0, (UNIT_STATS UnitKind2.infantry).movement⟩ [] [(0, 0)] [] (by decide)⟩

/-- C4 amended: in the turn-based variant the origin is never included in
calculateMovementRange, because the scan skips occupied tiles and the origin
holds the unit itself; in the time-driven variant the origin is always
included in calculateValidMoves (moving onto it is instead prevented by the
click handler, which requires an empty destination tile). -/
theorem c4_amended :
    (∀ (g : GridG) (u : UnitG), (g.tile u.position.1 u.position.2).unit ≠ none →
      u.position ∉ calculateMovementRange g u) ∧
    (∀ (g : Grid2) (x y : Nat) (u : Unit2), (g.tile x y).unit = some u →
      (x, y) ∈ calculateValidMoves g x y) := by
  constructor
  · intro g u hocc hmem
    unfold calculateMovementRange at hmem
    simp only [List.mem_flatMap, List.mem_filterMap] at hmem
    obtain ⟨dx, hdx, dy, hdy, hbody⟩ := hmem
    split_ifs at hbody with hb hempty hdist
    · -- the surviving branch returned some (nx, ny) = u.position
      have hxy : (((u.position.1 : Int) + dx).toNat, ((u.position.2 : Int) + dy).toNat) =
          u.position := by
        exact Option.some.inj hbody
      rw [show ((u.position.1 : Int) + dx).toNat = u.position.1 from congrArg Prod.fst hxy,
        show ((u.position.2 : Int) + dy).toNat = u.position.2 from congrArg Prod.snd hxy] at hempty
      exact hocc hempty
  · intro g x y u hu
    unfold calculateValidMoves
    rw [hu]
    exact mem_bfsLoop_head g u.player (gridWidth * gridHeight)
      ⟨x, y, (UNIT_STATS u.type).movement⟩ [] [(x, y)] [] (by decide)

/-- Unit of the C4 amended witness on the turn-based board. -/
def c4UnitG : UnitG := createUnit UnitKindG.tank (4, 4) PlayerG.red "c4t"

/-- Board of the C4 amended witness. -/
def c4GridG : GridG := ⟨fun x y =>
  if x = 4 ∧ y = 4 then { plainTileG 4 4 with unit := some c4UnitG } else plainTileG x y⟩

/-- Witness for the C4 amended theorem at concrete inputs. -/
theorem c4_amended_witness :
    c4UnitG.position ∉ calculateMovementRange c4GridG c4UnitG ∧
    (0, 0) ∈ calculateValidMoves c4Grid2 0 0 :=
  ⟨c4_amended.1 c4GridG c4UnitG (by decide),
   c4_amended.2 c4Grid2 0 0 c4Unit2 rfl⟩

/-! ## C7 -/

/-- Attacker of the C7 scenario: a red Infantry at (0, 0). -/
def c7Attacker : UnitG := createUnit UnitKindG.infantry (0, 0) PlayerG.red "c7a"

/-- Defender of the C7 scenario: the last blue unit, at (1, 0) with health 10,
so the attack (damage 10) destroys it. -/
def c7Defender : UnitG := { createUnit UnitKindG.infantry (1, 0) PlayerG.blue "c7d" with health := 10 }

/-- Board of the C7 scenario. -/
def c7Grid : GridG := ⟨fun x y =>
  if x = 0 ∧ y = 0 then { plainTileG 0 0 with unit := some c7Attacker }
  else if x = 1 ∧ y = 0 then { plainTileG 1 0 with unit := some c7Defender }
  else plainTileG x y⟩

/-- Match state of the C7 scenario, red to act. -/
def c7State : GameState :=
  { grid := c7Grid, selectedUnit := some c7Attacker, currentPlayer := PlayerG.red,
    movementRange := [], attackRange := [(1, 0)], gameStatus := "" }

/-- Counterexample to C7: the attack that destroys the last blue unit only
sets the status string to the winner; no terminal state is entered, and the
next command (endTurn) is processed normally, flipping the current player —
it is not rejected.  There is no reset operation in the code at all. -/
theorem c7_counterexample :
    ((attackUnit c7Attacker 1 0 c7State).map fun s2 =>
      (countUnits s2.grid PlayerG.blue, s2.gameStatus, s2.currentPlayer,
        (endTurn s2).currentPlayer)) =
      some (0, "Red wins!", PlayerG.red, PlayerG.blue) := by
  have hdmg : calculateDamage c7Attacker c7Defender ((c7State.grid.tile 1 0).terrain) = 10 := by
    show ratMin (10 : ℚ) (ratMax 10 (ratMax 0 (55 - (10 + 10 * (0 / 100))))) = 10
    norm_num [ratMin, ratMax]
  unfold attackUnit
  rw [show (c7State.grid.tile 1 0).unit = some c7Defender from rfl]
  dsimp only
  rw [hdmg]
  rw [if_pos (show c7Defender.health - 10 ≤ 0 by
    norm_num [show c7Defender.health = (10 : ℚ) from rfl])]
  decide

/-- C7 amended: after an attack that leaves red with units and blue with
none, the status string is set to "Red wins!", but the state machine is not
terminal: endTurn still flips the current player on any state, so subsequent
commands are not rejected (and no reset command exists). -/
theorem c7_amended (attacker : UnitG) (x y : Nat) (s s2 : GameState)
    (h : attackUnit attacker x y s = some s2)
    (hred : countUnits s2.grid PlayerG.red ≠ 0)
    (hblue : countUnits s2.grid PlayerG.blue = 0) :
    s2.gameStatus = "Red wins!" ∧
    (endTurn s2).currentPlayer ≠ s2.currentPlayer := by
  have hflip : ∀ t : GameState, (endTurn t).currentPlayer ≠ t.currentPlayer := by
    intro t
    show otherPlayer t.currentPlayer ≠ t.currentPlayer
    cases hc : t.currentPlayer <;> simp [otherPlayer]
  refine ⟨?_, hflip s2⟩
  unfold attackUnit at h
  cases hd : (s.grid.tile x y).unit with
  | none =>
    rw [hd] at h
    exact Option.noConfusion h
  | some defender =>
    rw [hd] at h
    simp only [Option.some.injEq] at h
    subst h
    dsimp only at hred hblue ⊢
    split_ifs at hred hblue ⊢ <;>
      first
        | rfl
        | exact absurd (by assumption) hred

/-- Witness for the C7 amended theorem: the concrete C7 scenario. -/
theorem c7_amended_witness :
    ((attackUnit c7Attacker 1 0 c7State).getD c7State).gameStatus = "Red wins!" ∧
    (endTurn ((attackUnit c7Attacker 1 0 c7State).getD c7State)).currentPlayer ≠
      ((attackUnit c7Attacker 1 0 c7State).getD c7State).currentPlayer := by
  have heval : ((attackUnit c7Attacker 1 0 c7State).map fun s2 =>
      (countUnits s2.grid PlayerG.red, countUnits s2.grid PlayerG.blue)) = some (1, 0) := by
    have hdmg : calculateDamage c7Attacker c7Defender ((c7State.grid.tile 1 0).terrain) = 10 := by
      show ratMin (10 : ℚ) (ratMax 10 (ratMax 0 (55 - (10 + 10 * (0 / 100))))) = 10
      norm_num [ratMin, ratMax]
    unfold attackUnit
    rw [show (c7State.grid.tile 1 0).unit = some c7Defender from rfl]
    dsimp only
    rw [hdmg]
    rw [if_pos (show c7Defender.health - 10 ≤ 0 by
      norm_num [show c7Defender.health = (10 : ℚ) from rfl])]
    decide
  have hsome : attackUnit c7Attacker 1 0 c7State =
      some ((attackUnit c7Attacker 1 0 c7State).getD c7State) := by
    unfold attackUnit
    rw [show (c7State.grid.tile 1 0).unit = some c7Defender from rfl]
    rfl
  rw [hsome] at heval
  have hpair : (countUnits ((attackUnit c7Attacker 1 0 c7State).getD c7State).grid PlayerG.red,
      countUnits ((attackUnit c7Attacker 1 0 c7State).getD c7State).grid PlayerG.blue) = (1, 0) :=
    Option.some.inj heval
  have hred : countUnits ((attackUnit c7Attacker 1 0 c7State).getD c7State).grid PlayerG.red = 1 :=
    congrArg Prod.fst hpair
  have hblue : countUnits ((attackUnit c7Attacker 1 0 c7State).getD c7State).grid PlayerG.blue = 0 :=
    congrArg Prod.snd hpair
  exact c7_amended c7Attacker 1 0 c7State _ hsome (by rw [hred]; exact one_ne_zero) hblue

/-! ## C1 -/

/-- Everything in the queue component after one neighbor examination was
already queued, or is the examined neighbor, enqueued only when it is in
bounds, enterable and affordable, with the remaining budget decreased by the
step cost. -/
theorem tryNeighbor_fst_mem (g : Grid2) (pl : Player2) (cur : BfsNode)
    (st : List BfsNode × List (Nat × Nat)) (d : Int × Int) (n : BfsNode)
    (hn : n ∈ (tryNeighbor g pl cur st d).1) :
    n ∈ st.1 ∨
      ∃ nx ny : Nat, (nx : Int) = (cur.x : Int) + d.1 ∧ (ny : Int) = (cur.y : Int) + d.2 ∧
        nx < gridWidth ∧ ny < gridHeight ∧
        canEnter2 pl (g.tile nx ny) = true ∧
        moveCost2 (g.tile nx ny).terrain ≤ cur.movesLeft ∧
        n = ⟨nx, ny, cur.movesLeft - moveCost2 (g.tile nx ny).terrain⟩ := by
  unfold tryNeighbor at hn
  dsimp only at hn
  split_ifs at hn with hb hv he hc
  all_goals try exact Or.inl hn
  dsimp only at hn
  rcases List.mem_append.mp hn with h | h
  · exact Or.inl h
  · have hxeq : (((cur.x : Int) + d.1).toNat : Int) = (cur.x : Int) + d.1 :=
      Int.toNat_of_nonneg hb.1
    have hyeq : (((cur.y : Int) + d.2).toNat : Int) = (cur.y : Int) + d.2 :=
      Int.toNat_of_nonneg hb.2.2.1
    have hxlt : ((cur.x : Int) + d.1).toNat < gridWidth := by
      have h1 := hb.2.1
      omega
    have hylt : ((cur.y : Int) + d.2).toNat < gridHeight := by
      have h1 := hb.2.2.2
      omega
    exact Or.inr ⟨((cur.x : Int) + d.1).toNat, ((cur.y : Int) + d.2).toNat,
      hxeq, hyeq, hxlt, hylt, he, hc, List.mem_singleton.mp h⟩

/-- Everything in the queue after the four-direction fold was already queued,
or was enqueued from the dequeued node along one of the four directions under
the enqueue conditions. -/
theorem foldl_tryNeighbor_mem (g : Grid2) (pl : Player2) (cur : BfsNode) :
    ∀ (ds : List (Int × Int)) (st : List BfsNode × List (Nat × Nat)) (n : BfsNode),
      n ∈ (ds.foldl (tryNeighbor g pl cur) st).1 →
      n ∈ st.1 ∨
        ∃ d ∈ ds, ∃ nx ny : Nat,
          (nx : Int) = (cur.x : Int) + d.1 ∧ (ny : Int) = (cur.y : Int) + d.2 ∧
          nx < gridWidth ∧ ny < gridHeight ∧
          canEnter2 pl (g.tile nx ny) = true ∧
          moveCost2 (g.tile nx ny).terrain ≤ cur.movesLeft ∧
          n = ⟨nx, ny, cur.movesLeft - moveCost2 (g.tile nx ny).terrain⟩ := by
  intro ds
  induction ds with
  | nil =>
    intro st n hn
    exact Or.inl hn
  | cons d ds ih =>
    intro st n hn
    rcases ih _ n hn with h | ⟨d2, hd2, hex⟩
    · rcases tryNeighbor_fst_mem g pl cur st d n h with h2 | hex
      · exact Or.inl h2
      · exact Or.inr ⟨d, List.mem_cons_self _ _, hex⟩
    · exact Or.inr ⟨d2, List.mem_cons_of_mem _ hd2, hex⟩

/-- Soundness of the BFS loop: provided every queued node is reachable with
exactly its recorded remaining budget and every recorded move is reachable,
every position in the final move set is reachable along an enqueue-compliant
path. -/
theorem bfsLoop_sound (g : Grid2) (pl : Player2) (ox oy budget : Nat) :
    ∀ (fuel : Nat) (queue : List BfsNode) (visited moves : List (Nat × Nat)),
      (∀ n ∈ queue, Reach g pl ox oy budget n.x n.y n.movesLeft) →
      (∀ p ∈ moves, ∃ r, Reach g pl ox oy budget p.1 p.2 r) →
      ∀ p ∈ bfsLoop g pl fuel queue visited moves,
        ∃ r, Reach g pl ox oy budget p.1 p.2 r := by
  intro fuel
  induction fuel with
  | zero =>
    intro queue visited moves hq hm p hp
    exact hm p hp
  | succ k ih =>
    intro queue visited moves hq hm p hp
    cases queue with
    | nil => exact hm p hp
    | cons cur rest =>
      refine ih _ _ _ ?_ ?_ p hp
      · intro n hn
        rcases foldl_tryNeighbor_mem g pl cur directions (rest, visited) n hn with
          h | ⟨d, hd, nx, ny, hx, hy, hxw, hyh, he, hc, rfl⟩
        · exact hq n (List.mem_cons_of_mem _ h)
        · exact Reach.step (hq cur (List.mem_cons_self _ _)) hd hx hy hxw hyh he hc
      · intro q hqm
        rcases List.mem_cons.mp hqm with h | h
        · subst h
          exact ⟨cur.movesLeft, hq cur (List.mem_cons_self _ _)⟩
        · exact hm q h

/-- C1: every position in the valid-move set computed by the BFS of
calculateValidMoves is reached by a path obeying exactly the enqueue rules of
the claim: 4-directional steps into in-bounds tiles that are empty or hold an
own-faction unit, a step cost of 2 on mountains and 1 elsewhere, and a
cumulative cost along that (enqueued) path that never exceeds the movement
budget of the unit (Reach tracks the exact remaining budget r of that path). -/
theorem c1_valid_moves_sound (g : Grid2) (x y : Nat) (u : Unit2)
    (hu : (g.tile x y).unit = some u)
    (p : Nat × Nat) (hp : p ∈ calculateValidMoves g x y) :
    ∃ r, Reach g u.player x y (UNIT_STATS u.type).movement p.1 p.2 r := by
  unfold calculateValidMoves at hp
  rw [hu] at hp
  refine bfsLoop_sound g u.player x y (UNIT_STATS u.type).movement
    (gridWidth * gridHeight) _ [(x, y)] [] ?_ ?_ p hp
  · intro n hn
    rcases List.mem_singleton.mp hn with rfl
    exact Reach.origin
  · intro q hq
    exact absurd hq (List.not_mem_nil q)

/-- Witness for C1: on the concrete one-unit board, the tile (1, 0) is in the
computed valid-move set and is therefore reachable within the budget. -/
theorem c1_valid_moves_sound_witness :
    (1, 0) ∈ calculateValidMoves c4Grid2 0 0 ∧
    ∃ r, Reach c4Grid2 Player2.p1 0 0 (UNIT_STATS c4Unit2.type).movement 1 0 r :=
  ⟨by decide, c1_valid_moves_sound c4Grid2 0 0 c4Unit2 rfl (1, 0) (by decide)⟩

end BattleForFun
